import Mathlib

/-!
Verification of the FPL player-comparison service (src/app.py) through a
shallow embedding.  Python strings are modelled as `List Char`, Python
dicts as insertion-ordered association lists, and the request handler as a
pure function of the externally fetched datasets (the network fetches
themselves are outside the embedding; their results are inputs).
-/

namespace FPLApp

/-! ## Name normalizer (`normalize` in src/app.py)

`normalize(text)` performs `unicodedata.normalize('NFD', text)`, then
`.encode('ascii', 'ignore').decode('utf-8')` (drop all non-ASCII code
points), then `.strip().lower()`.
-/

/-- Python whitespace test on the ASCII code points (codes 9-13, 28-31, 32);
only ASCII characters reach `str.strip` inside `normalize`, because the
string has been ASCII-filtered first. -/
def pyIsSpace (c : Char) : Bool :=
  decide (c.toNat = 32 ∨ (9 ≤ c.toNat ∧ c.toNat ≤ 13) ∨ (28 ≤ c.toNat ∧ c.toNat ≤ 31))

/-- Python `str.strip()`: drop leading whitespace, then trailing whitespace. -/
def pyStrip (s : List Char) : List Char :=
  ((s.dropWhile pyIsSpace).reverse.dropWhile pyIsSpace).reverse

/-- Python `str.lower()` on a single character, for the ASCII range (inside
`normalize` the string is ASCII-filtered before `.lower()` is applied, so
only the ASCII case is ever exercised; other characters are left alone). -/
def pyLowerChar (c : Char) : Char :=
  if 65 ≤ c.toNat ∧ c.toNat ≤ 90 then Char.ofNat (c.toNat + 32) else c

/-- Python `str.lower()` character by character. -/
def pyLower (s : List Char) : List Char := s.map pyLowerChar

/-- Fragment of the Unicode canonical-decomposition (NFD) table covering
accented Latin letters that occur in player names; every character not
listed here and outside ASCII is treated as having no decomposition.
ASCII characters never decompose, which is the only fact the proofs use. -/
def nfdTable : List (Char × List Char) :=
  [ ('á', ['a', Char.ofNat 0x301]), ('é', ['e', Char.ofNat 0x301]),
    ('í', ['i', Char.ofNat 0x301]), ('ó', ['o', Char.ofNat 0x301]),
    ('ú', ['u', Char.ofNat 0x301]), ('ä', ['a', Char.ofNat 0x308]),
    ('ö', ['o', Char.ofNat 0x308]), ('ü', ['u', Char.ofNat 0x308]),
    ('ñ', ['n', Char.ofNat 0x303]), ('ç', ['c', Char.ofNat 0x327]),
    ('è', ['e', Char.ofNat 0x300]), ('à', ['a', Char.ofNat 0x300]) ]

/-- Canonical decomposition of one character: ASCII code points are NFD
invariant; non-ASCII code points decompose per `nfdTable`. -/
def nfdChar (c : Char) : List Char :=
  if c.toNat < 128 then [c]
  else
    match nfdTable.find? (fun e => e.1 = c) with
    | some e => e.2
    | none => [c]

/-- `unicodedata.normalize('NFD', s)`. -/
def nfd (s : List Char) : List Char := s.flatMap nfdChar

/-- `.encode('ascii', 'ignore').decode('utf-8')`: keep only ASCII code points. -/
def asciiOnly (s : List Char) : List Char := s.filter (fun c => c.toNat < 128)

/-- `normalize` from src/app.py: NFD decomposition, ASCII filtering, then
`strip` and `lower`. -/
def normalize (s : List Char) : List Char := pyLower (pyStrip (asciiOnly (nfd s)))

/-- A list has no leading whitespace. -/
def NoLead (l : List Char) : Prop := ∀ c, l.head? = some c → pyIsSpace c = false

/-! ## Data model

The JSON records of the two external feeds, restricted to the fields the
program reads.  `now_cost` is the integer price in tenths; `points_per_game`
and `status` are strings that pass through the handler untouched (the
handler's `float(...)` / `/10` conversions are display formatting on these
values and carry no logic of their own).
-/

structure Player where
  web_name : List Char
  first_name : List Char
  second_name : List Char
  team : Nat
  now_cost : Nat
  points_per_game : List Char
  status : List Char
deriving DecidableEq

structure Team where
  id : Nat
  name : List Char
deriving DecidableEq

structure Fixture where
  team_h : Nat
  team_a : Nat
  team_h_difficulty : Nat
  team_a_difficulty : Nat
  kickoff_time : List Char
deriving DecidableEq

/-- One historical match as loaded by `load_historical_data`: the corpus
keeps only records carrying a full-time score, with the season label
attached; `ft1`/`ft2` are the two components of `score.ft`. -/
structure HistMatch where
  team1 : List Char
  team2 : List Char
  date : List Char
  season : List Char
  ft1 : Nat
  ft2 : Nat
deriving DecidableEq

/-- The dict appended by `find_head_to_head_matches`. -/
structure H2HEntry where
  date : List Char
  season : List Char
  home_team : List Char
  away_team : List Char
  home_score : Nat
  away_score : Nat
deriving DecidableEq

/-! ## String comparison and substring containment

Python compares strings lexicographically by code point; `x in y` on
strings is contiguous-substring containment.
-/

def lexLe : List Char → List Char → Bool
  | [], _ => true
  | _ :: _, [] => false
  | a :: as, b :: bs => if a.toNat = b.toNat then lexLe as bs else decide (a.toNat < b.toNat)

/-- Does `needle` occur at the very start of `hay`? -/
def leadMatch : List Char → List Char → Bool
  | [], _ => true
  | _ :: _, [] => false
  | a :: as, b :: bs => a = b && leadMatch as bs

/-- Python `needle in hay` on strings: contiguous substring containment. -/
def substrIn (needle : List Char) : List Char → Bool
  | [] => leadMatch needle []
  | c :: t => leadMatch needle (c :: t) || substrIn needle t

/-! ## Head-to-head resolver (`find_head_to_head_matches`) -/

/-- The record built for a historical match whose `team1` side matched the
queried first team (the `if team1_norm in team1_match` branch). -/
def h2hOriented (team1_name team2_name : List Char) (m : HistMatch) : H2HEntry :=
  ⟨m.date, m.season, team1_name, team2_name, m.ft1, m.ft2⟩

/-- The record built in the other branch: team names swapped, and the code
takes `ft[1]` as the home score and `ft[0]` as the away score. -/
def h2hSwapped (team1_name team2_name : List Char) (m : HistMatch) : H2HEntry :=
  ⟨m.date, m.season, team2_name, team1_name, m.ft2, m.ft1⟩

/-- The loop body of `find_head_to_head_matches` for one corpus match:
keep it when both normalized team names occur (as substrings) on opposite
sides, oriented by which side the first team matched. -/
def h2hCollect (team1_name team2_name : List Char) (m : HistMatch) : Option H2HEntry :=
  let t1 := normalize team1_name
  let t2 := normalize team2_name
  let m1 := normalize m.team1
  let m2 := normalize m.team2
  if (substrIn t1 m1 && substrIn t2 m2) || (substrIn t1 m2 && substrIn t2 m1) then
    if substrIn t1 m1 then some (h2hOriented team1_name team2_name m)
    else some (h2hSwapped team1_name team2_name m)
  else none

/-- `find_head_to_head_matches` from src/app.py: collect the qualifying
corpus matches, sort by date descending (Python `sort` with `reverse=True`
is the stable descending sort) and keep the first 4. -/
def find_head_to_head_matches (team1_name team2_name : List Char)
    (historical_matches : List HistMatch) : List H2HEntry :=
  ((historical_matches.filterMap (h2hCollect team1_name team2_name)).mergeSort
    (fun x y => lexLe y.date x.date)).take 4

/-! ## Head-to-head summary (`generate_h2h_summary`) -/

/-- Did the player's team win this head-to-head record?  Mirrors the
branching of `generate_h2h_summary`: the home branch applies when
`home_team` equals the player's team, else the away branch. -/
def winForTeam (team : List Char) (m : H2HEntry) : Bool :=
  if m.home_team = team then decide (m.home_score > m.away_score)
  else decide (m.away_score > m.home_score)

def lossForTeam (team : List Char) (m : H2HEntry) : Bool :=
  if m.home_team = team then decide (m.home_score < m.away_score)
  else decide (m.away_score < m.home_score)

def drawForTeam (team : List Char) (m : H2HEntry) : Bool :=
  if m.home_team = team then decide (m.home_score = m.away_score)
  else decide (m.away_score = m.home_score)

/-- Number of wins accumulated by the loop of `generate_h2h_summary`. -/
def h2hWins (ms : List H2HEntry) (team : List Char) : Nat :=
  (ms.filter (winForTeam team)).length

def h2hDraws (ms : List H2HEntry) (team : List Char) : Nat :=
  (ms.filter (drawForTeam team)).length

def h2hLosses (ms : List H2HEntry) (team : List Char) : Nat :=
  (ms.filter (lossForTeam team)).length

/-- Decimal rendering of a number, as Python string interpolation does. -/
def natRepr (n : Nat) : List Char := (Nat.repr n).toList

/-- `generate_h2h_summary` from src/app.py.  Note that a count of zero
contributes no part at all, and singular counts drop the plural suffix. -/
def generate_h2h_summary (ms : List H2HEntry) (player_team : List Char) : List Char :=
  if ms.isEmpty then ("No recent matches").toList
  else
    let wins := h2hWins ms player_team
    let draws := h2hDraws ms player_team
    let losses := h2hLosses ms player_team
    let parts : List (List Char) :=
      (if wins > 0 then
        [natRepr wins ++ (" win").toList ++ (if wins ≠ 1 then ['s'] else [])] else []) ++
      (if draws > 0 then
        [natRepr draws ++ (" draw").toList ++ (if draws ≠ 1 then ['s'] else [])] else []) ++
      (if losses > 0 then
        [natRepr losses ++ (" loss").toList ++ (if losses ≠ 1 then ['e', 's'] else [])] else [])
    if parts.isEmpty then ("No recent matches").toList
    else List.intercalate ((", ").toList) parts

/-! ## Approximate matching (difflib, as invoked by `match_player`)

`get_close_matches(word, keys, n=1, cutoff=0.6)` keeps the candidates `x`
with `SequenceMatcher(None, x, word).ratio() >= cutoff` and returns the
`n` largest `(ratio, x)` pairs.  The embedding follows CPython's difflib:
`find_longest_match` is the `j2len` dynamic program over `b2j` followed by
the adjacent-extension loops; the junk-extension loops are omitted because
the junk set is empty when `isjunk is None` (autojunk's "popular" elements
are only removed from `b2j`, which `popularChar` models, and are not
junk).  The `quick_ratio` prefilters are upper bounds of `ratio` and
cannot change the surviving set, so they are not modelled.  Float
comparisons against the cutoff are modelled as exact rational comparisons
(`ratio >= 0.6` becomes `10*M >= 3*T`), which agrees with the
double-precision comparison for every string of realistic length.
-/

/-- Autojunk: an element is "popular" when `b` has at least 200 elements
and the element occurs more than `len(b) // 100 + 1` times. -/
def popularChar (b : List Char) (c : Char) : Bool :=
  decide (200 ≤ b.length) && decide (b.length / 100 + 1 < b.count c)

/-- `b2j[c]`: the increasing list of positions of `c` in `b`; popular
elements are dropped from the index. -/
def b2jIdx (b : List Char) (c : Char) : List Nat :=
  if popularChar b c then []
  else (List.range b.length).filter (fun j => b.get? j = some c)

/-- Lookup in a `j2len` row (a Python dict defaulting to 0). -/
def rowLookup (row : List (Nat × Nat)) (j : Nat) : Nat :=
  match row.find? (fun e => e.1 = j) with
  | some e => e.2
  | none => 0

/-- Equality test of two optional characters (an index read that is in
range on every reachable call). -/
def ocharEq (x y : Option Char) : Bool :=
  match x, y with
  | some c, some d => c = d
  | _, _ => false

/-- One step of the `j2len` dynamic program at row `i`, position `j`:
`k = j2len.get(j-1, 0) + 1`, record `newj2len[j] = k`, and take the block
`(i-k+1, j-k+1, k)` when `k` beats the best so far (strict, so the
earliest block wins ties). -/
def dpStep (i : Nat) (row : List (Nat × Nat)) (acc : List (Nat × Nat) × (Nat × Nat × Nat))
    (j : Nat) : List (Nat × Nat) × (Nat × Nat × Nat) :=
  let k := (if j = 0 then 0 else rowLookup row (j - 1)) + 1
  let newRow := acc.1 ++ [(j, k)]
  if acc.2.2.2 < k then (newRow, (i + 1 - k, j + 1 - k, k)) else (newRow, acc.2)

/-- The outer loop of `find_longest_match`: rows `i = alo, alo+1, ...`
(the fuel counts the remaining rows, so the first argument is
`ahi - alo`); within a row, the positions of `b2j[a[i]]` restricted to
`[blo, bhi)` are processed in increasing order. -/
def dpRows (a b : List Char) (blo bhi : Nat) :
    Nat → Nat → List (Nat × Nat) → Nat × Nat × Nat → Nat × Nat × Nat
  | 0, _, _, best => best
  | fuel + 1, i, row, best =>
    match a.get? i with
    | none => best
    | some c =>
      let js := (b2jIdx b c).filter (fun j => decide (blo ≤ j) && decide (j < bhi))
      let res := js.foldl (dpStep i row) ([], best)
      dpRows a b blo bhi fuel (i + 1) res.1 res.2

/-- The first extension loop of `find_longest_match`: while the elements
just before the block match (and are not junk -- the junk set is empty
here), grow the block to the left. -/
def extendLeft (a b : List Char) (alo blo : Nat) :
    Nat → Nat → Nat → Nat × Nat × Nat
  | 0, bestj, bestsize => (0, bestj, bestsize)
  | besti + 1, bestj, bestsize =>
    if alo < besti + 1 ∧ blo < bestj ∧
        ocharEq (a.get? besti) (b.get? (bestj - 1)) = true then
      extendLeft a b alo blo besti (bestj - 1) (bestsize + 1)
    else (besti + 1, bestj, bestsize)

/-- The second extension loop: grow the block to the right while the
elements just after it match.  The fuel (`ahi` at the call site) bounds
the iteration count. -/
def extendRight (a b : List Char) (ahi bhi besti bestj : Nat) :
    Nat → Nat → Nat
  | 0, bestsize => bestsize
  | fuel + 1, bestsize =>
    if besti + bestsize < ahi ∧ bestj + bestsize < bhi ∧
        ocharEq (a.get? (besti + bestsize)) (b.get? (bestj + bestsize)) = true then
      extendRight a b ahi bhi besti bestj fuel (bestsize + 1)
    else bestsize

/-- `SequenceMatcher.find_longest_match` on `a[alo:ahi]` / `b[blo:bhi]`,
with the empty junk set of the `isjunk=None` call in `match_player`. -/
def find_longest_match (a b : List Char) (alo ahi blo bhi : Nat) : Nat × Nat × Nat :=
  let best := dpRows a b blo bhi (ahi - alo) alo [] (alo, blo, 0)
  let best2 := extendLeft a b alo blo best.1 best.2.1 best.2.2
  let bs := extendRight a b ahi bhi best2.1 best2.2.1 ahi best2.2.2
  (best2.1, best2.2.1, bs)

/-- Total matched size (the sum of the matching-block sizes produced by
`get_matching_blocks`), by the divide-and-conquer recursion around
`find_longest_match`.  The side conditions of the guard always hold for
the blocks difflib returns; the fuel exceeds the recursion depth, so the
base cases are unreachable and the value agrees with Python on every
input. -/
def matchTotalF (a b : List Char) : Nat → Nat → Nat → Nat → Nat → Nat
  | 0, _, _, _, _ => 0
  | fuel + 1, alo, ahi, blo, bhi =>
    let r := find_longest_match a b alo ahi blo bhi
    if 0 < r.2.2 ∧ alo ≤ r.1 ∧ r.1 + r.2.2 ≤ ahi ∧ blo ≤ r.2.1 ∧ r.2.1 + r.2.2 ≤ bhi then
      matchTotalF a b fuel alo r.1 blo r.2.1 + r.2.2 +
        matchTotalF a b fuel (r.1 + r.2.2) ahi (r.2.1 + r.2.2) bhi
    else 0

/-- `M`: total matched size between candidate `a` (seq1) and query word
`b` (seq2). -/
def matchTotal (a b : List Char) : Nat :=
  matchTotalF a b (a.length + b.length + 1) 0 a.length 0 b.length

/-- The cutoff test `ratio() >= 0.6` of `get_close_matches`, as the exact
rational comparison `2*M/T >= 3/5` (for `T = 0` Python defines the ratio
as 1.0, and both sides of the comparison are 0 here, so the test also
holds). -/
def cutoffOk (x word : List Char) : Bool :=
  decide (3 * (x.length + word.length) ≤ 10 * matchTotal x word)

/-- The `(ratio, x)` score of a candidate, as an exact rational
(numerator, positive denominator); `T = 0` means both strings are empty
and the ratio is defined to be 1.0. -/
def scorePair (word x : List Char) : Nat × Nat :=
  let t := x.length + word.length
  if t = 0 then (1, 1) else (2 * matchTotal x word, t)

/-- Comparison of `(ratio, x)` tuples as `heapq.nlargest` performs it:
first the ratios (cross-multiplied rationals), ties broken by comparing
the strings themselves. -/
def tupleGe (word : List Char) (x y : List Char) : Bool :=
  let px := scorePair word x
  let py := scorePair word y
  if px.1 * py.2 = py.1 * px.2 then lexLe y x else decide (py.1 * px.2 < px.1 * py.2)

/-- `difflib.get_close_matches(word, possibilities, n, 0.6)`: filter by the
cutoff, then the `n` largest `(ratio, x)` tuples in descending order
(`heapq.nlargest` is the stable descending sort followed by `[:n]`). -/
def get_close_matches (word : List Char) (possibilities : List (List Char)) (n : Nat) :
    List (List Char) :=
  let result := possibilities.filter (fun x => cutoffOk x word)
  (result.mergeSort (fun x y => tupleGe word x y)).take n

/-! ## Player matching (`match_player`) -/

/-- The three normalized name variants registered for a player, in the
insertion order of the loop body (`web`, `full`, `last`). -/
def playerVariants (p : Player) : List (List Char) :=
  [normalize p.web_name, normalize (p.first_name ++ [' '] ++ p.second_name),
   normalize p.second_name]

/-- `player_map[k] = v` on an insertion-ordered dict: overwrite in place
when the key exists, else append. -/
def dinsert (m : List (List Char × Player)) (k : List Char) (v : Player) :
    List (List Char × Player) :=
  if m.any (fun e => e.1 = k) then
    m.map (fun e => if e.1 = k then (e.1, v) else e)
  else m ++ [(k, v)]

/-- The `player_map` dict built by `match_player`: every variant of every
player, later writes winning. -/
def build_player_map (players : List Player) : List (List Char × Player) :=
  players.foldl (fun m p => (playerVariants p).foldl (fun m2 v => dinsert m2 v p) m) []

/-- Dict lookup. -/
def dlookup (m : List (List Char × Player)) (k : List Char) : Option Player :=
  match m.find? (fun e => e.1 = k) with
  | some e => some e.2
  | none => none

/-- `match_player` from src/app.py: exact lookup of the normalized name in
the variant dict first; otherwise `get_close_matches` over the dict keys
with `n=1, cutoff=0.6`. -/
def match_player (name : List Char) (players : List Player) :
    Option Player × Option (List Char) :=
  let name_clean := normalize name
  let pm := build_player_map players
  match dlookup pm name_clean with
  | some p => (some p, none)
  | none =>
    match get_close_matches name_clean (pm.map (fun e => e.1)) 1 with
    | [] => (none, none)
    | c :: _ => (none, some c)

/-! ## Formatting of head-to-head data (`format_h2h_data`) -/

/-- One formatted match record of the API response. -/
structure H2HMatchFmt where
  date : List Char
  season : List Char
  result : List Char
  venue : List Char
  full_time_score : List Char
deriving DecidableEq

/-- The head-to-head block of a fixture: summary plus match records (the
source's field `matches`; that word is reserved syntax in Lean, hence the
name `records`). -/
structure H2HData where
  summary : List Char
  records : List H2HMatchFmt
deriving DecidableEq

/-- Formatting of one head-to-head record from the player's team's
perspective (result letter and venue). -/
def formatOne (player_team : List Char) (m : H2HEntry) : H2HMatchFmt :=
  if m.home_team = player_team then
    ⟨m.date, m.season,
     (if m.home_score > m.away_score then [Char.ofNat 87]
      else if m.home_score < m.away_score then [Char.ofNat 76] else [Char.ofNat 68]),
     ("home").toList,
     natRepr m.home_score ++ [Char.ofNat 45] ++ natRepr m.away_score⟩
  else
    ⟨m.date, m.season,
     (if m.away_score > m.home_score then [Char.ofNat 87]
      else if m.away_score < m.home_score then [Char.ofNat 76] else [Char.ofNat 68]),
     ("away").toList,
     natRepr m.home_score ++ [Char.ofNat 45] ++ natRepr m.away_score⟩

/-- `format_h2h_data` from src/app.py: `None` for an empty match list,
else the summary plus the formatted records. -/
def format_h2h_data (ms : List H2HEntry) (player_team : List Char) : Option H2HData :=
  if ms.isEmpty then none
  else some ⟨generate_h2h_summary ms player_team, ms.map (formatOne player_team)⟩

/-! ## Teams, difficulty labels and fixtures -/

/-- The `fdr_labels` table with the `.get(d, "Unknown")` default. -/
def fdrLabel (d : Nat) : List Char :=
  if d = 1 then ("Very Easy").toList
  else if d = 2 then ("Easy").toList
  else if d = 3 then ("Evenly Matched").toList
  else if d = 4 then ("Difficult").toList
  else if d = 5 then ("Likely To Lose").toList
  else ("Unknown").toList

/-- The static `team_name_mapping` table (FPL short names to openfootball
full names).  The source key written with an apostrophe is spelled with
`Char.ofNat 39` here. -/
def team_name_mapping : List (List Char × List Char) :=
  [ (("Man City").toList, ("Manchester City").toList),
    (("Man Utd").toList, ("Manchester United").toList),
    (("Spurs").toList, ("Tottenham Hotspur").toList),
    (("Newcastle").toList, ("Newcastle United").toList),
    (("Brighton").toList, ("Brighton & Hove Albion").toList),
    (("West Ham").toList, ("West Ham United").toList),
    (("Crystal Palace").toList, ("Crystal Palace").toList),
    (("Aston Villa").toList, ("Aston Villa").toList),
    (("Brentford").toList, ("Brentford").toList),
    (("Fulham").toList, ("Fulham").toList),
    (("Wolves").toList, ("Wolverhampton Wanderers").toList),
    (("Burnley").toList, ("Burnley").toList),
    (("Luton").toList, ("Luton Town").toList),
    (("Sheffield Utd").toList, ("Sheffield United").toList),
    (("Nottingham Forest").toList, ("Nottingham Forest").toList),
    (("Nott").toList ++ [Char.ofNat 39] ++ ("m Forest").toList, ("Nottingham Forest").toList),
    (("Everton").toList, ("Everton").toList),
    (("Chelsea").toList, ("Chelsea").toList),
    (("Liverpool").toList, ("Liverpool").toList),
    (("Arsenal").toList, ("Arsenal").toList),
    (("Bournemouth").toList, ("AFC Bournemouth").toList) ]

/-- `get_team_name`: linear scan by id, `"Unknown"` when absent. -/
def get_team_name (team_id : Nat) (teams : List Team) : List Char :=
  match teams.find? (fun t => t.id = team_id) with
  | some t => t.name
  | none => ("Unknown").toList

/-- `map_team_name`: `team_name_mapping.get(fpl_name, fpl_name)`. -/
def map_team_name (fpl_name : List Char) : List Char :=
  match team_name_mapping.find? (fun e => e.1 = fpl_name) with
  | some e => e.2
  | none => fpl_name

/-- One entry of the list built by `get_next_fixtures`; `head_to_head` is
`none` exactly when the key is absent from the dict. -/
structure FixtureData where
  opponent : List Char
  home : Bool
  kickoff_time : List Char
  label : List Char
  difficulty : Nat
  head_to_head : Option H2HData
deriving DecidableEq

/-- The loop body of `get_next_fixtures` for one fixture involving the
team: home/away side, applicable difficulty, opponent resolution, alias
mapping, head-to-head lookup and the per-fixture dict. -/
def fixtureEntry (team_id : Nat) (f : Fixture) (teams : List Team)
    (historical_matches : List HistMatch) : FixtureData :=
  let is_home := decide (f.team_h = team_id)
  let opp_id := if is_home then f.team_a else f.team_h
  let difficulty := if is_home then f.team_h_difficulty else f.team_a_difficulty
  let team_name := get_team_name team_id teams
  let opp_name := get_team_name opp_id teams
  let team_name_mapped := map_team_name team_name
  let opp_name_mapped := map_team_name opp_name
  let h2h_matches := find_head_to_head_matches team_name_mapped opp_name_mapped historical_matches
  let h2h_data := format_h2h_data h2h_matches team_name_mapped
  ⟨opp_name, is_home, f.kickoff_time, fdrLabel difficulty, difficulty, h2h_data⟩

/-- `get_next_fixtures` from src/app.py: entries for the fixtures involving
the team, sorted ascending by kickoff time (Python's stable sort), first
four kept. -/
def get_next_fixtures (team_id : Nat) (fixtures : List Fixture) (teams : List Team)
    (historical_matches : List HistMatch) : List FixtureData :=
  let upcoming := (fixtures.filter
      (fun f => decide (f.team_h = team_id) || decide (f.team_a = team_id))).map
    (fun f => fixtureEntry team_id f teams historical_matches)
  (upcoming.mergeSort (fun x y => lexLe x.kickoff_time y.kickoff_time)).take 4

/-! ## Difficulty summary (`summarize_difficulty`) -/

/-- `counts[label] = counts.get(label, 0) + 1` on an insertion-ordered dict. -/
def bumpLabel (cnts : List (List Char × Nat)) (k : List Char) : List (List Char × Nat) :=
  if cnts.any (fun e => e.1 = k) then
    cnts.map (fun e => if e.1 = k then (e.1, e.2 + 1) else e)
  else cnts ++ [(k, 1)]

/-- The `counts` dict of `summarize_difficulty` after the loop. -/
def labelCounts (fxs : List FixtureData) : List (List Char × Nat) :=
  fxs.foldl (fun cnts f => bumpLabel cnts f.label) []

/-- `summarize_difficulty` from src/app.py. -/
def summarize_difficulty (fxs : List FixtureData) : List Char :=
  List.intercalate ((", ").toList)
    ((labelCounts fxs).map (fun e => natRepr e.2 ++ [' '] ++ pyLower e.1))

/-! ## The `/compare` request handler

The handler is embedded as a pure function of the query parameter and the
two fetched datasets.  A fetch exception in `load_fpl_data` makes it
return `([], [], [])`, so upstream failure is the `players = []` input; a
failing `load_historical_data` yields `[]`.  Flask's default status for
the success branch is 200.
-/

/-- One element of the response array: either a matched player's record
(in the field order of the source's `OrderedDict`; the price is carried as
the integer tenths `now_cost`, whose division by 10 is display formatting)
or an error object with optional suggestion. -/
inductive PResult where
  | ok (player : List Char) (team : List Char) (price_tenths : Nat) (ppg : List Char)
      (status : List Char) (summary : List Char) (fixtures : List FixtureData)
  | noMatch (msg : List Char) (suggestion : Option (List Char))
deriving DecidableEq

/-- The JSON body of a `/compare` response. -/
inductive RespBody where
  | errObj (msg : List Char)
  | arr (results : List PResult)
deriving DecidableEq

/-- The per-name branch of the handler loop. -/
def processName (name : List Char) (players : List Player) (teams : List Team)
    (fixtures : List Fixture) (historical_matches : List HistMatch) : PResult :=
  match match_player name players with
  | (some p, _) =>
    let team_name := get_team_name p.team teams
    let next_games := get_next_fixtures p.team fixtures teams historical_matches
    PResult.ok (p.first_name ++ [' '] ++ p.second_name) team_name p.now_cost
      p.points_per_game p.status (summarize_difficulty next_games) next_games
  | (none, suggestion) =>
    PResult.noMatch (("No match for ").toList ++ [Char.ofNat 39] ++ name ++ [Char.ofNat 39])
      suggestion

/-- `compare_players` from src/app.py: missing or empty `players` query
gives 400; an empty player dataset (the upstream-failure encoding) gives
500; otherwise one result per comma-separated, stripped name, in request
order, with status 200. -/
def compare_players (query : Option (List Char))
    (fpl_data : List Player × List Team × List Fixture)
    (historical_matches : List HistMatch) : Nat × RespBody :=
  match query with
  | none =>
    (400, RespBody.errObj (("Missing ").toList ++ [Char.ofNat 39] ++ ("players").toList ++
      [Char.ofNat 39] ++ (" parameter").toList))
  | some q =>
    if q.isEmpty then
      (400, RespBody.errObj (("Missing ").toList ++ [Char.ofNat 39] ++ ("players").toList ++
        [Char.ofNat 39] ++ (" parameter").toList))
    else
      let names := (q.splitOn ',').map pyStrip
      let players := fpl_data.1
      let teams := fpl_data.2.1
      let fixtures := fpl_data.2.2
      if players.isEmpty then
        (500, RespBody.errObj (("Unable to load FPL data. Please try again later.").toList))
      else
        (200, RespBody.arr (names.map
          (fun name => processName name players teams fixtures historical_matches)))

/-! ## Spec-side definitions and concrete inputs used by witnesses -/

/-- Following the spec's words for claim C5: a summary of the fixed shape
"W wins, D draws, L losses" that reports all three counts. -/
def specSummaryForm (w d l : Nat) : List Char :=
  natRepr w ++ (" wins, ").toList ++ natRepr d ++ (" draws, ").toList ++
    natRepr l ++ (" losses").toList

/-- A single head-to-head record: a 1-0 home win for team "X". -/
def exH2HMatch : H2HEntry :=
  ⟨("2023-05-01").toList, ("2022/23").toList, ['X'], ['Y'], 1, 0⟩

/-- A tiny historical match record for witnesses. -/
def exHistMatch : HistMatch :=
  ⟨("ab").toList, ("cd").toList, ("2024-01-01").toList, ("23/24").toList, 2, 1⟩

/-- A tiny historical corpus for witnesses. -/
def exHist : List HistMatch := [exHistMatch]

/-- A tiny fixture-entry record for witnesses. -/
def exFD1 : FixtureData :=
  ⟨("Everton").toList, true, ("t1").toList, ("Easy").toList, 2, none⟩

/-- A second tiny fixture-entry record for witnesses. -/
def exFD2 : FixtureData :=
  ⟨("Spurs").toList, false, ("t2").toList, ("Difficult").toList, 4, none⟩

/-- A tiny player record for witnesses. -/
def exPlayer : Player :=
  ⟨("abc").toList, ("a").toList, ("bc").toList, 1, 50, ("2.0").toList, ("a").toList⟩

/-- A tiny fixture for witnesses. -/
def exFixture : Fixture := ⟨1, 2, 3, 4, ("2024-08-10T11:30:00Z").toList⟩

/-- Following the spec's words for claim C10: the labels in first-seen
order. -/
def firstSeenLabels (ls : List (List Char)) : List (List Char) :=
  ls.foldl (fun acc a => if a ∈ acc then acc else acc ++ [a]) []

/-! ### Facts about the normalizer -/

lemma toNat_charOfNat_of_lt {n : Nat} (h : n < 0xd800) : (Char.ofNat n).toNat = n := by
  have hv : n.isValidChar := Or.inl h
  simp [Char.ofNat, hv, Char.ofNatAux, Char.toNat, UInt32.toNat, BitVec.toNat_ofNatLt]

lemma pyLowerChar_toNat_of_upper {c : Char} (h1 : 65 ≤ c.toNat) (h2 : c.toNat ≤ 90) :
    (pyLowerChar c).toNat = c.toNat + 32 := by
  unfold pyLowerChar
  rw [if_pos ⟨h1, h2⟩]
  exact toNat_charOfNat_of_lt (by omega)

lemma pyLowerChar_eq_of_not_upper {c : Char} (h : ¬(65 ≤ c.toNat ∧ c.toNat ≤ 90)) :
    pyLowerChar c = c := by
  unfold pyLowerChar
  rw [if_neg h]

lemma pyLowerChar_toNat_lt {c : Char} (h : c.toNat < 128) : (pyLowerChar c).toNat < 128 := by
  by_cases hu : 65 ≤ c.toNat ∧ c.toNat ≤ 90
  · rw [pyLowerChar_toNat_of_upper hu.1 hu.2]; omega
  · rw [pyLowerChar_eq_of_not_upper hu]; exact h

lemma pyLowerChar_idem (c : Char) : pyLowerChar (pyLowerChar c) = pyLowerChar c := by
  by_cases hu : 65 ≤ c.toNat ∧ c.toNat ≤ 90
  · have h := pyLowerChar_toNat_of_upper hu.1 hu.2
    exact pyLowerChar_eq_of_not_upper (by omega)
  · rw [pyLowerChar_eq_of_not_upper hu]
    exact pyLowerChar_eq_of_not_upper hu

lemma pyIsSpace_pyLowerChar (c : Char) : pyIsSpace (pyLowerChar c) = pyIsSpace c := by
  by_cases hu : 65 ≤ c.toNat ∧ c.toNat ≤ 90
  · have h := pyLowerChar_toNat_of_upper hu.1 hu.2
    unfold pyIsSpace
    rw [h]
    simp only [decide_eq_decide]
    omega
  · rw [pyLowerChar_eq_of_not_upper hu]

lemma pyLower_pyLower (s : List Char) : pyLower (pyLower s) = pyLower s := by
  unfold pyLower
  rw [List.map_map]
  exact List.map_congr_left (fun c _ => pyLowerChar_idem c)

lemma noLead_dropWhile (l : List Char) : NoLead (l.dropWhile pyIsSpace) := by
  induction l with
  | nil => intro c hc; simp at hc
  | cons a t ih =>
    rw [List.dropWhile_cons]
    by_cases hp : pyIsSpace a = true
    · rw [if_pos hp]
      exact ih
    · rw [if_neg hp]
      intro c hc
      simp at hc
      rw [← hc]
      simpa using hp

lemma dropWhile_eq_self_of_noLead {l : List Char} (h : NoLead l) :
    l.dropWhile pyIsSpace = l := by
  cases l with
  | nil => rfl
  | cons a t =>
    rw [List.dropWhile_cons, if_neg]
    simp [h a rfl]

lemma noLead_of_prefix {l₁ l₂ : List Char} (h : l₁ <+: l₂) (h2 : NoLead l₂) : NoLead l₁ := by
  intro c hc
  obtain ⟨u, hu⟩ := h
  apply h2 c
  subst hu
  cases l₁ with
  | nil => simp at hc
  | cons a t =>
    simp at hc
    simp [hc]

lemma noLead_pyStrip_reverse (l : List Char) : NoLead (pyStrip l).reverse := by
  unfold pyStrip
  rw [List.reverse_reverse]
  exact noLead_dropWhile _

lemma noLead_pyStrip (l : List Char) : NoLead (pyStrip l) := by
  have hsuf : ((l.dropWhile pyIsSpace).reverse.dropWhile pyIsSpace) <:+
      (l.dropWhile pyIsSpace).reverse := List.dropWhile_suffix _
  have hpre : pyStrip l <+: l.dropWhile pyIsSpace := by
    have := hsuf.reverse
    rwa [List.reverse_reverse] at this
  exact noLead_of_prefix hpre (noLead_dropWhile l)

lemma pyStrip_idem (l : List Char) : pyStrip (pyStrip l) = pyStrip l := by
  have h1 : (pyStrip l).dropWhile pyIsSpace = pyStrip l :=
    dropWhile_eq_self_of_noLead (noLead_pyStrip l)
  have h2 : (pyStrip l).reverse.dropWhile pyIsSpace = (pyStrip l).reverse :=
    dropWhile_eq_self_of_noLead (noLead_pyStrip_reverse l)
  show (((pyStrip l).dropWhile pyIsSpace).reverse.dropWhile pyIsSpace).reverse = pyStrip l
  rw [h1, h2, List.reverse_reverse]

lemma pyStrip_pyLower (s : List Char) : pyStrip (pyLower s) = pyLower (pyStrip s) := by
  have hfun : pyIsSpace ∘ pyLowerChar = pyIsSpace := funext pyIsSpace_pyLowerChar
  unfold pyStrip pyLower
  rw [List.dropWhile_map, hfun, ← List.map_reverse, List.dropWhile_map, hfun,
    ← List.map_reverse]

lemma nfdChar_ascii {c : Char} (h : c.toNat < 128) : nfdChar c = [c] := by
  unfold nfdChar
  rw [if_pos h]

lemma nfd_of_ascii {s : List Char} (h : ∀ c ∈ s, c.toNat < 128) : nfd s = s := by
  induction s with
  | nil => rfl
  | cons a t ih =>
    unfold nfd at *
    simp only [List.flatMap_cons]
    rw [nfdChar_ascii (h a (List.mem_cons_self a t)), ih (fun c hc => h c (List.mem_cons_of_mem a hc))]
    rfl

lemma mem_pyStrip {c : Char} {l : List Char} (h : c ∈ pyStrip l) : c ∈ l := by
  unfold pyStrip at h
  rw [List.mem_reverse] at h
  have h2 := (List.dropWhile_suffix (l := (l.dropWhile pyIsSpace).reverse) pyIsSpace).sublist.mem h
  rw [List.mem_reverse] at h2
  exact (List.dropWhile_suffix pyIsSpace).sublist.mem h2

lemma mem_normalize_ascii {c : Char} {s : List Char} (h : c ∈ normalize s) :
    c.toNat < 128 := by
  unfold normalize pyLower at h
  rw [List.mem_map] at h
  obtain ⟨d, hd, hdc⟩ := h
  have hd2 := mem_pyStrip hd
  unfold asciiOnly at hd2
  rw [List.mem_filter] at hd2
  have : d.toNat < 128 := by simpa using hd2.2
  rw [← hdc]
  exact pyLowerChar_toNat_lt this

/-- Claim C4: the name normalizer of src/app.py is idempotent; normalizing a
string twice gives the same result as normalizing it once. -/
theorem C4_normalize_idempotent (s : List Char) : normalize (normalize s) = normalize s := by
  have hascii : ∀ c ∈ normalize s, c.toNat < 128 := fun c hc => mem_normalize_ascii hc
  have h1 : nfd (normalize s) = normalize s := nfd_of_ascii hascii
  have h2 : asciiOnly (normalize s) = normalize s := by
    unfold asciiOnly
    rw [List.filter_eq_self]
    intro c hc
    simpa using hascii c hc
  show pyLower (pyStrip (asciiOnly (nfd (normalize s)))) = normalize s
  rw [h1, h2]
  show pyLower (pyStrip (pyLower (pyStrip (asciiOnly (nfd s))))) = normalize s
  rw [pyStrip_pyLower, pyStrip_idem, pyLower_pyLower]
  rfl

lemma lexLe_total : ∀ a b : List Char, (lexLe a b || lexLe b a) = true := by
  intro a
  induction a with
  | nil => intro b; simp [lexLe]
  | cons x xs ih =>
    intro b
    cases b with
    | nil => simp [lexLe]
    | cons y ys =>
      by_cases h : x.toNat = y.toNat
      · simp only [lexLe, if_pos h, if_pos h.symm]
        exact ih ys
      · have hne : ¬(y.toNat = x.toNat) := fun h2 => h h2.symm
        simp only [lexLe, if_neg h, if_neg hne, Bool.or_eq_true, decide_eq_true_eq]
        omega

lemma lexLe_trans : ∀ a b c : List Char,
    lexLe a b = true → lexLe b c = true → lexLe a c = true := by
  intro a
  induction a with
  | nil => intro b c _ _; simp [lexLe]
  | cons x xs ih =>
    intro b c hab hbc
    cases b with
    | nil => simp [lexLe] at hab
    | cons y ys =>
      cases c with
      | nil => simp [lexLe] at hbc
      | cons z zs =>
        simp only [lexLe] at hab hbc ⊢
        by_cases hxy : x.toNat = y.toNat
        · by_cases hyz : y.toNat = z.toNat
          · rw [if_pos (hxy.trans hyz)]
            rw [if_pos hxy] at hab
            rw [if_pos hyz] at hbc
            exact ih ys zs hab hbc
          · rw [if_pos hxy] at hab
            rw [if_neg hyz] at hbc
            rw [if_neg (hxy ▸ hyz), decide_eq_true_eq]
            rw [decide_eq_true_eq] at hbc
            omega
        · rw [if_neg hxy, decide_eq_true_eq] at hab
          by_cases hyz : y.toNat = z.toNat
          · rw [if_neg (fun h => hxy (hyz ▸ h)), decide_eq_true_eq]
            omega
          · rw [if_neg hyz, decide_eq_true_eq] at hbc
            rw [if_neg (by omega), decide_eq_true_eq]
            omega

/-- Claim C3: the head-to-head list never exceeds 4 entries, every entry
comes from a corpus match in which both normalized team names occur by
substring containment as the two participants, and the list is ordered
descending by date. -/
theorem C3_head_to_head_list (team1_name team2_name : List Char)
    (hist : List HistMatch) :
    (find_head_to_head_matches team1_name team2_name hist).length ≤ 4 ∧
    (∀ e ∈ find_head_to_head_matches team1_name team2_name hist, ∃ m ∈ hist,
      ((substrIn (normalize team1_name) (normalize m.team1) &&
        substrIn (normalize team2_name) (normalize m.team2)) ||
       (substrIn (normalize team1_name) (normalize m.team2) &&
        substrIn (normalize team2_name) (normalize m.team1))) = true ∧
      (e = h2hOriented team1_name team2_name m ∨
       e = h2hSwapped team1_name team2_name m)) ∧
    List.Pairwise (fun x y : H2HEntry => lexLe y.date x.date = true)
      (find_head_to_head_matches team1_name team2_name hist) := by
  refine ⟨?_, ?_, ?_⟩
  · exact List.length_take_le _ _
  · intro e he
    unfold find_head_to_head_matches at he
    have he2 := List.mem_mergeSort.mp (List.mem_of_mem_take he)
    rw [List.mem_filterMap] at he2
    obtain ⟨m, hm, hme⟩ := he2
    refine ⟨m, hm, ?_⟩
    unfold h2hCollect at hme
    simp only at hme
    by_cases hcond : ((substrIn (normalize team1_name) (normalize m.team1) &&
        substrIn (normalize team2_name) (normalize m.team2)) ||
       (substrIn (normalize team1_name) (normalize m.team2) &&
        substrIn (normalize team2_name) (normalize m.team1))) = true
    · refine ⟨hcond, ?_⟩
      rw [if_pos hcond] at hme
      by_cases hfst : substrIn (normalize team1_name) (normalize m.team1) = true
      · rw [if_pos hfst] at hme
        exact Or.inl (Option.some_injective _ hme).symm
      · rw [if_neg hfst] at hme
        exact Or.inr (Option.some_injective _ hme).symm
    · rw [if_neg hcond] at hme
      exact absurd hme (by simp)
  · apply List.Pairwise.sublist (List.take_sublist _ _)
    exact List.sorted_mergeSort
      (fun a b c hab hbc => lexLe_trans c.date b.date a.date hbc hab)
      (fun a b => Bool.or_comm (lexLe b.date a.date) (lexLe a.date b.date) ▸
        lexLe_total b.date a.date) _

lemma h2h_result_trichotomy (team : List Char) (m : H2HEntry) :
    (if winForTeam team m = true then 1 else 0) +
    (if drawForTeam team m = true then 1 else 0) +
    (if lossForTeam team m = true then 1 else 0) = 1 := by
  unfold winForTeam drawForTeam lossForTeam
  by_cases hh : m.home_team = team
  · simp only [if_pos hh, decide_eq_true_eq]
    split_ifs <;> omega
  · simp only [if_neg hh, decide_eq_true_eq]
    split_ifs <;> omega

lemma h2h_counts_sum (ms : List H2HEntry) (team : List Char) :
    h2hWins ms team + h2hDraws ms team + h2hLosses ms team = ms.length := by
  induction ms with
  | nil => rfl
  | cons m t ih =>
    unfold h2hWins h2hDraws h2hLosses at *
    simp only [List.filter_cons, List.length_cons]
    have h := h2h_result_trichotomy team m
    split_ifs at h ⊢ <;> (try simp only [List.length_cons]) <;> omega

/-! ## Claim theorems -/

lemma anyKey_iff (cnts : List (List Char × Nat)) (k : List Char) :
    cnts.any (fun e => e.1 = k) = true ↔ k ∈ cnts.map Prod.fst := by
  rw [List.any_eq_true, List.mem_map]
  constructor
  · rintro ⟨e, he, hek⟩
    exact ⟨e, he, by simpa using hek⟩
  · rintro ⟨e, he, hek⟩
    exact ⟨e, he, by simpa using hek⟩

lemma bumpLabel_keys (cnts : List (List Char × Nat)) (k : List Char) :
    (bumpLabel cnts k).map Prod.fst =
      if k ∈ cnts.map Prod.fst then cnts.map Prod.fst else cnts.map Prod.fst ++ [k] := by
  unfold bumpLabel
  by_cases hk : k ∈ cnts.map Prod.fst
  · rw [if_pos ((anyKey_iff cnts k).mpr hk), if_pos hk, List.map_map]
    apply List.map_congr_left
    intro e _
    by_cases he1 : e.1 = k <;> simp [he1]
  · rw [if_neg (fun h => hk ((anyKey_iff cnts k).mp h)), if_neg hk, List.map_append]
    rfl

lemma labelCounts_keys_general (ls : List (List Char)) :
    ∀ acc : List (List Char × Nat),
      ((ls.foldl (fun c l => bumpLabel c l) acc).map Prod.fst) =
        ls.foldl (fun ks l => if l ∈ ks then ks else ks ++ [l]) (acc.map Prod.fst) := by
  induction ls with
  | nil => intro acc; rfl
  | cons l ls ih =>
    intro acc
    simp only [List.foldl_cons]
    rw [ih, bumpLabel_keys]

lemma labelCounts_eq_foldl_map (fxs : List FixtureData) :
    labelCounts fxs = (fxs.map FixtureData.label).foldl (fun c l => bumpLabel c l) [] := by
  unfold labelCounts
  rw [List.foldl_map]

lemma labelCounts_keys (fxs : List FixtureData) :
    (labelCounts fxs).map Prod.fst = firstSeenLabels (fxs.map FixtureData.label) := by
  rw [labelCounts_eq_foldl_map]
  exact labelCounts_keys_general (fxs.map FixtureData.label) []

lemma labelCounts_counts_general (ls : List (List Char)) :
    ∀ (acc : List (List Char × Nat)) (pre : List (List Char)),
      (acc.map Prod.fst).Nodup →
      (∀ e ∈ acc, e.2 = pre.count e.1) →
      (∀ k, k ∈ acc.map Prod.fst ↔ k ∈ pre) →
      ∀ e ∈ ls.foldl (fun c l => bumpLabel c l) acc, e.2 = (pre ++ ls).count e.1 := by
  induction ls with
  | nil =>
    intro acc pre _ hcount _ e he
    simpa using hcount e he
  | cons l ls ih =>
    intro acc pre hnd hcount hmem e he
    simp only [List.foldl_cons] at he
    have hnd2 : ((bumpLabel acc l).map Prod.fst).Nodup := by
      rw [bumpLabel_keys]
      by_cases hl : l ∈ acc.map Prod.fst
      · rwa [if_pos hl]
      · rw [if_neg hl, List.nodup_append]
        exact ⟨hnd, List.nodup_singleton l, by simpa [List.disjoint_left] using hl⟩
    have hcount2 : ∀ e2 ∈ bumpLabel acc l, e2.2 = (pre ++ [l]).count e2.1 := by
      intro e2 he2
      unfold bumpLabel at he2
      by_cases hin : acc.any (fun e3 => e3.1 = l) = true
      · rw [if_pos hin, List.mem_map] at he2
        obtain ⟨e3, he3, he3e⟩ := he2
        by_cases h31 : e3.1 = l
        · rw [if_pos h31] at he3e
          rw [← he3e]
          simp only [List.count_append, h31]
          rw [hcount e3 he3, h31]
          simp [List.count_cons]
        · rw [if_neg h31] at he3e
          rw [← he3e, List.count_append, hcount e3 he3]
          have : List.count e3.1 [l] = 0 :=
            List.count_eq_zero_of_not_mem (by simpa using h31)
          omega
      · rw [if_neg hin, List.mem_append] at he2
        rcases he2 with he2 | he2
        · have h2l : ¬(e2.1 = l) := by
            intro hcontr
            exact hin (List.any_eq_true.mpr ⟨e2, he2, by simpa using hcontr⟩)
          rw [List.count_append, hcount e2 he2]
          have : List.count e2.1 [l] = 0 :=
            List.count_eq_zero_of_not_mem (by simpa using h2l)
          omega
        · have he2e : e2 = (l, 1) := by simpa using he2
          subst he2e
          have hlp : l ∉ pre := by
            intro hcontr
            have := (hmem l).mpr hcontr
            rw [← anyKey_iff] at this
            exact hin this
          simp [List.count_append, List.count_eq_zero_of_not_mem hlp, List.count_cons]
    have hmem2 : ∀ k, k ∈ (bumpLabel acc l).map Prod.fst ↔ k ∈ pre ++ [l] := by
      intro k
      rw [bumpLabel_keys]
      by_cases hl : l ∈ acc.map Prod.fst
      · rw [if_pos hl, List.mem_append, hmem k]
        constructor
        · exact Or.inl
        · rintro (hk | hk)
          · exact hk
          · have : k = l := by simpa using hk
            exact this ▸ (hmem l).mp hl
      · rw [if_neg hl, List.mem_append, List.mem_append, hmem k]
    have := ih (bumpLabel acc l) (pre ++ [l]) hnd2 hcount2 hmem2 e he
    simpa [List.append_assoc] using this

/-- Claim C5, counterexample: for a single 1-0 win the code produces the
summary "1 win", which does not have the claimed "W wins, D draws,
L losses" shape (the zero draw and loss counts are not reported). -/
theorem C5_counterexample :
    generate_h2h_summary [exH2HMatch] ['X'] = ("1 win").toList ∧
    generate_h2h_summary [exH2HMatch] ['X'] ≠
      specSummaryForm (h2hWins [exH2HMatch] ['X']) (h2hDraws [exH2HMatch] ['X'])
        (h2hLosses [exH2HMatch] ['X']) := by
  constructor
  · decide
  · decide

/-- Claim C5 (amended): for every non-empty head-to-head list the summary
is built from the win, draw and loss counters taken from the player's
team's perspective, and these three counts sum to the number of matches
considered; parts with a zero count are omitted from the string. -/
theorem C5_h2h_counts (ms : List H2HEntry) (team : List Char) (_h : ms ≠ []) :
    h2hWins ms team + h2hDraws ms team + h2hLosses ms team = ms.length := by
  exact h2h_counts_sum ms team

/-- Witness for C5 at the concrete one-match list. -/
theorem C5_h2h_counts_witness :
    h2hWins [exH2HMatch] ['X'] + h2hDraws [exH2HMatch] ['X'] +
      h2hLosses [exH2HMatch] ['X'] = 1 :=
  C5_h2h_counts [exH2HMatch] ['X'] (by decide)

/-- Claim C6: a missing or empty `players` parameter yields status 400 with
an error body, and the response does not depend on the fetched datasets
(no data is consumed). -/
theorem C6_missing_players_param (query : Option (List Char))
    (h : query = none ∨ query = some [])
    (fpl fpl2 : List Player × List Team × List Fixture) (hist hist2 : List HistMatch) :
    (compare_players query fpl hist).1 = 400 ∧
    (∃ msg, (compare_players query fpl hist).2 = RespBody.errObj msg) ∧
    compare_players query fpl hist = compare_players query fpl2 hist2 := by
  rcases h with h | h <;> subst h <;>
    exact ⟨rfl, ⟨_, rfl⟩, rfl⟩

/-- Witness for C6: the missing-parameter request against two different
datasets. -/
theorem C6_witness :
    (compare_players none ([exPlayer], [], []) exHist).1 = 400 ∧
    (∃ msg, (compare_players none ([exPlayer], [], []) exHist).2 = RespBody.errObj msg) ∧
    compare_players none ([exPlayer], [], []) exHist = compare_players none ([], [], []) [] :=
  C6_missing_players_param none (Or.inl rfl) ([exPlayer], [], []) ([], [], []) exHist []

/-- Claim C7: when the fantasy-API fetch fails (the loader yields the empty
datasets, so the player list is empty), the handler answers 500 with the
fixed error body, never a partial per-player array. -/
theorem C7_upstream_failure (q : List Char) (hq : q ≠ [])
    (teams : List Team) (fixtures : List Fixture) (hist : List HistMatch) :
    compare_players (some q) ([], teams, fixtures) hist =
      (500, RespBody.errObj (("Unable to load FPL data. Please try again later.").toList)) := by
  have hq2 : q.isEmpty = false := by simpa [List.isEmpty_iff] using hq
  simp [compare_players, hq2]

/-- Witness for C7 at a concrete query string. -/
theorem C7_witness :
    compare_players (some (("Salah").toList)) ([], [], []) [] =
      (500, RespBody.errObj (("Unable to load FPL data. Please try again later.").toList)) :=
  C7_upstream_failure (("Salah").toList) (by decide) [] [] []

/-- Claim C9: a team id absent from the team list resolves to the literal
name "Unknown", and the opponent field of every fixture entry is exactly
such a team-name resolution of the opponent id (so it can be "Unknown"
rather than an error). -/
theorem C9_unknown_team (team_id : Nat) (teams : List Team)
    (h : ∀ t ∈ teams, t.id ≠ team_id) :
    get_team_name team_id teams = ("Unknown").toList ∧
    (∀ (f : Fixture) (hist : List HistMatch),
      (fixtureEntry team_id f teams hist).opponent =
        get_team_name (if f.team_h = team_id then f.team_a else f.team_h) teams) := by
  constructor
  · unfold get_team_name
    have hn : teams.find? (fun t => decide (t.id = team_id)) = none := by
      rw [List.find?_eq_none]
      intro t ht
      simp [h t ht]
    rw [hn]
  · intro f hist
    by_cases hh : f.team_h = team_id <;> simp [fixtureEntry, hh]

/-- Witness for C9: looking up id 5 in an empty team list, and the opponent
of a concrete fixture entry. -/
theorem C9_witness :
    get_team_name 5 [] = ("Unknown").toList ∧
    (fixtureEntry 5 exFixture [] []).opponent =
      get_team_name (if exFixture.team_h = 5 then exFixture.team_a else exFixture.team_h) [] :=
  ⟨(C9_unknown_team 5 [] (by simp)).1, (C9_unknown_team 5 [] (by simp)).2 exFixture []⟩

/-- Witness for C3 at a one-match corpus. -/
theorem C3_witness :
    (find_head_to_head_matches (("ab").toList) (("cd").toList) exHist).length ≤ 4 ∧
    (∃ m ∈ exHist,
      ((substrIn (normalize (("ab").toList)) (normalize m.team1) &&
        substrIn (normalize (("cd").toList)) (normalize m.team2)) ||
       (substrIn (normalize (("ab").toList)) (normalize m.team2) &&
        substrIn (normalize (("cd").toList)) (normalize m.team1))) = true ∧
      (h2hOriented (("ab").toList) (("cd").toList) exHistMatch =
        h2hOriented (("ab").toList) (("cd").toList) m ∨
       h2hOriented (("ab").toList) (("cd").toList) exHistMatch =
        h2hSwapped (("ab").toList) (("cd").toList) m)) := by
  have happ := C3_head_to_head_list (("ab").toList) (("cd").toList) exHist
  refine ⟨happ.1, happ.2.1 (h2hOriented (("ab").toList) (("cd").toList) exHistMatch) ?_⟩
  have h1 : List.filterMap (h2hCollect (("ab").toList) (("cd").toList)) exHist =
      [h2hOriented (("ab").toList) (("cd").toList) exHistMatch] := by decide
  unfold find_head_to_head_matches
  rw [h1, List.mergeSort_singleton]
  decide

/-- Claim C2: the fixture list contains at most 4 entries, each entry is
built (by the loop body) from a fixture of the input list involving the
team, the entries are sorted ascending by kickoff time, each label comes
from the difficulty of the applicable side through the fixed table, and
the table maps 1-5 to the five fixed texts with "Unknown" for anything
else. -/
theorem C2_next_fixtures (team_id : Nat) (fixtures : List Fixture) (teams : List Team)
    (hist : List HistMatch) :
    (get_next_fixtures team_id fixtures teams hist).length ≤ 4 ∧
    (∀ e ∈ get_next_fixtures team_id fixtures teams hist, ∃ f ∈ fixtures,
      (f.team_h = team_id ∨ f.team_a = team_id) ∧
      e = fixtureEntry team_id f teams hist ∧
      e.label = fdrLabel (if f.team_h = team_id then f.team_h_difficulty
        else f.team_a_difficulty)) ∧
    List.Pairwise (fun x y : FixtureData => lexLe x.kickoff_time y.kickoff_time = true)
      (get_next_fixtures team_id fixtures teams hist) ∧
    (fdrLabel 1 = ("Very Easy").toList ∧ fdrLabel 2 = ("Easy").toList ∧
     fdrLabel 3 = ("Evenly Matched").toList ∧ fdrLabel 4 = ("Difficult").toList ∧
     fdrLabel 5 = ("Likely To Lose").toList) ∧
    (∀ d : Nat, d ≠ 1 → d ≠ 2 → d ≠ 3 → d ≠ 4 → d ≠ 5 →
      fdrLabel d = ("Unknown").toList) := by
  refine ⟨List.length_take_le _ _, ?_, ?_, ⟨rfl, rfl, rfl, rfl, rfl⟩, ?_⟩
  · intro e he
    unfold get_next_fixtures at he
    have he2 := List.mem_mergeSort.mp (List.mem_of_mem_take he)
    rw [List.mem_map] at he2
    obtain ⟨f, hf, hfe⟩ := he2
    rw [List.mem_filter] at hf
    obtain ⟨hfmem, hcond⟩ := hf
    have hcond2 : f.team_h = team_id ∨ f.team_a = team_id := by simpa using hcond
    refine ⟨f, hfmem, hcond2, hfe.symm, ?_⟩
    rw [← hfe]
    by_cases hh : f.team_h = team_id <;> simp [fixtureEntry, hh]
  · apply List.Pairwise.sublist (List.take_sublist _ _)
    exact List.sorted_mergeSort
      (fun a b c hab hbc =>
        lexLe_trans a.kickoff_time b.kickoff_time c.kickoff_time hab hbc)
      (fun a b => lexLe_total a.kickoff_time b.kickoff_time) _
  · intro d h1 h2 h3 h4 h5
    unfold fdrLabel
    rw [if_neg h1, if_neg h2, if_neg h3, if_neg h4, if_neg h5]

/-- Witness for C2 at a one-fixture list. -/
theorem C2_witness :
    (get_next_fixtures 1 [exFixture] [] []).length ≤ 4 ∧
    (∃ f ∈ [exFixture], (f.team_h = 1 ∨ f.team_a = 1) ∧
      fixtureEntry 1 exFixture [] [] = fixtureEntry 1 f [] [] ∧
      (fixtureEntry 1 exFixture [] []).label = fdrLabel
        (if f.team_h = 1 then f.team_h_difficulty else f.team_a_difficulty)) := by
  have happ := C2_next_fixtures 1 [exFixture] [] []
  refine ⟨happ.1, happ.2.1 (fixtureEntry 1 exFixture [] []) ?_⟩
  unfold get_next_fixtures
  have h1 : [exFixture].filter
      (fun f => decide (f.team_h = 1) || decide (f.team_a = 1)) = [exFixture] := by decide
  rw [h1]
  simp [List.mergeSort_singleton]

/-- Claim C8: a fixture entry carries a head-to-head block exactly when
the corpus produced at least one match for the pairing; with the empty
corpus (the failed-fetch outcome) the fixture list keeps its full length,
every fixture simply carries no head-to-head block, and the request as a
whole still succeeds with status 200. -/
theorem C8_historical_failure (team_id : Nat) (fixtures : List Fixture) (teams : List Team)
    (hist : List HistMatch) (f : Fixture) :
    ((fixtureEntry team_id f teams hist).head_to_head.isSome = true ↔
      find_head_to_head_matches (map_team_name (get_team_name team_id teams))
        (map_team_name (get_team_name (if f.team_h = team_id then f.team_a else f.team_h)
          teams)) hist ≠ []) ∧
    (get_next_fixtures team_id fixtures teams []).length =
      (get_next_fixtures team_id fixtures teams hist).length ∧
    (∀ e ∈ get_next_fixtures team_id fixtures teams [], e.head_to_head = none) ∧
    (∀ (q : List Char) (players : List Player), q ≠ [] → players ≠ [] →
      (compare_players (some q) (players, teams, fixtures) []).1 = 200) := by
  refine ⟨?_, ?_, ?_, ?_⟩
  · have hent : (fixtureEntry team_id f teams hist).head_to_head =
        format_h2h_data
          (find_head_to_head_matches (map_team_name (get_team_name team_id teams))
            (map_team_name (get_team_name (if f.team_h = team_id then f.team_a else f.team_h)
              teams)) hist)
          (map_team_name (get_team_name team_id teams)) := by
      by_cases hh : f.team_h = team_id <;> simp [fixtureEntry, hh]
    rw [hent]
    cases hfind : find_head_to_head_matches (map_team_name (get_team_name team_id teams))
      (map_team_name (get_team_name (if f.team_h = team_id then f.team_a else f.team_h)
        teams)) hist with
    | nil => simp [format_h2h_data]
    | cons m ms => simp [format_h2h_data]
  · unfold get_next_fixtures
    simp [List.length_take, List.length_mergeSort, List.length_map]
  · intro e he
    unfold get_next_fixtures at he
    have he2 := List.mem_mergeSort.mp (List.mem_of_mem_take he)
    rw [List.mem_map] at he2
    obtain ⟨f2, hf2, hfe⟩ := he2
    rw [← hfe]
    by_cases hh : f2.team_h = team_id <;>
      simp [fixtureEntry, hh, find_head_to_head_matches, format_h2h_data,
        List.mergeSort_nil]
  · intro q players hq hp
    have hq2 : q.isEmpty = false := by simpa [List.isEmpty_iff] using hq
    have hp2 : players.isEmpty = false := by simpa [List.isEmpty_iff] using hp
    simp [compare_players, hq2, hp2]

/-- Witness for C8: a request with one player and the empty corpus. -/
theorem C8_witness :
    (compare_players (some (("a").toList)) ([exPlayer], [], []) []).1 = 200 :=
  (C8_historical_failure 1 [] [] exHist exFixture).2.2.2 (("a").toList) [exPlayer]
    (by decide) (by decide)

/-- Claim C10: the empty fixture list summarizes to the empty string, so a
matched player with no fixtures is still reported (with "" and an empty
array); for any list the summary's per-label counters are keyed in
first-seen label order and each counter counts that label's occurrences. -/
theorem C10_difficulty_summary :
    summarize_difficulty [] = [] ∧
    (∀ fxs : List FixtureData,
      (labelCounts fxs).map Prod.fst = firstSeenLabels (fxs.map FixtureData.label) ∧
      ∀ e ∈ labelCounts fxs, e.2 = (fxs.map FixtureData.label).count e.1) ∧
    (∀ (team_id : Nat) (fixtures : List Fixture) (teams : List Team)
      (hist : List HistMatch),
      (∀ f ∈ fixtures, f.team_h ≠ team_id ∧ f.team_a ≠ team_id) →
      get_next_fixtures team_id fixtures teams hist = [] ∧
      summarize_difficulty (get_next_fixtures team_id fixtures teams hist) = []) := by
  refine ⟨rfl, ?_, ?_⟩
  · intro fxs
    refine ⟨labelCounts_keys fxs, ?_⟩
    intro e he
    rw [labelCounts_eq_foldl_map] at he
    have := labelCounts_counts_general (fxs.map FixtureData.label) [] []
      (by simp) (by simp) (by simp) e he
    simpa using this
  · intro team_id fixtures teams hist hno
    have hfilter : fixtures.filter
        (fun f => decide (f.team_h = team_id) || decide (f.team_a = team_id)) = [] := by
      rw [List.filter_eq_nil_iff]
      intro f hf
      simp [(hno f hf).1, (hno f hf).2]
    have hnil : get_next_fixtures team_id fixtures teams hist = [] := by
      unfold get_next_fixtures
      rw [hfilter]
      simp [List.mergeSort_nil]
    exact ⟨hnil, by rw [hnil]; rfl⟩

/-- Witness for C10 at a two-entry list and an uninvolved team id. -/
theorem C10_witness :
    (labelCounts [exFD1, exFD2, exFD1]).map Prod.fst =
      firstSeenLabels ([exFD1, exFD2, exFD1].map FixtureData.label) ∧
    get_next_fixtures 9 [exFixture] [] [] = [] ∧
    summarize_difficulty (get_next_fixtures 9 [exFixture] [] []) = [] :=
  ⟨(C10_difficulty_summary.2.1 [exFD1, exFD2, exFD1]).1,
   C10_difficulty_summary.2.2 9 [exFixture] [] [] (by decide)⟩

lemma dlookup_dinsert (m : List (List Char × Player)) (k k2 : List Char) (v : Player) :
    dlookup (dinsert m k v) k2 = if k2 = k then some v else dlookup m k2 := by
  unfold dinsert dlookup
  by_cases hin : m.any (fun e => e.1 = k) = true
  · rw [if_pos hin, List.find?_map]
    have hpf : ((fun e : List Char × Player => decide (e.1 = k2)) ∘
        (fun e : List Char × Player => if e.1 = k then (e.1, v) else e)) =
        (fun e : List Char × Player => decide (e.1 = k2)) := by
      funext e
      by_cases he : e.1 = k <;> simp [he]
    rw [hpf]
    by_cases hk : k2 = k
    · rw [if_pos hk]
      subst hk
      obtain ⟨e, he, hek⟩ := List.any_eq_true.mp hin
      cases hf : m.find? (fun e : List Char × Player => decide (e.1 = k2)) with
      | none =>
        rw [List.find?_eq_none] at hf
        exact absurd hek (by simpa using hf e he)
      | some e2 =>
        have h1 : e2.1 = k2 := by simpa using List.find?_some hf
        simp [Option.map, h1]
    · rw [if_neg hk]
      cases hf : m.find? (fun e : List Char × Player => decide (e.1 = k2)) with
      | none => rfl
      | some e2 =>
        have h1 : e2.1 = k2 := by simpa using List.find?_some hf
        have h2 : ¬(e2.1 = k) := fun hc => hk (h1 ▸ hc)
        simp [Option.map, h2]
  · rw [if_neg hin, List.find?_append]
    by_cases hk : k2 = k
    · subst hk
      have hf : m.find? (fun e : List Char × Player => decide (e.1 = k2)) = none := by
        rw [List.find?_eq_none]
        intro e he
        intro hc
        exact hin (List.any_eq_true.mpr ⟨e, he, hc⟩)
      rw [hf, if_pos rfl]
      simp [List.find?]
    · rw [if_neg hk]
      cases hf : m.find? (fun e : List Char × Player => decide (e.1 = k2)) with
      | none =>
        have : ([(k, v)].find? (fun e : List Char × Player => decide (e.1 = k2))) = none := by
          rw [List.find?_eq_none]
          intro e he
          have : e = (k, v) := by simpa using he
          subst this
          simpa using fun hc => hk hc.symm
        simp [Option.or, this]
      | some e2 => simp [Option.or]

lemma dlookup_insertVariants (vs : List (List Char)) (p : Player) :
    ∀ (m : List (List Char × Player)) (k : List Char),
      dlookup (vs.foldl (fun m2 v => dinsert m2 v p) m) k =
        if k ∈ vs then some p else dlookup m k := by
  induction vs with
  | nil => intro m k; simp
  | cons v vs ih =>
    intro m k
    simp only [List.foldl_cons]
    rw [ih]
    by_cases hk : k ∈ vs
    · rw [if_pos hk, if_pos (List.mem_cons_of_mem v hk)]
    · rw [if_neg hk, dlookup_dinsert]
      by_cases hkv : k = v
      · rw [if_pos hkv, if_pos (by rw [hkv]; exact List.mem_cons_self v vs)]
      · rw [if_neg hkv, if_neg (by simp [hkv, hk])]

lemma dlookup_build_general (players : List Player) :
    ∀ (m : List (List Char × Player)) (k : List Char),
      dlookup (players.foldl
          (fun m2 p => (playerVariants p).foldl (fun m3 v => dinsert m3 v p) m2) m) k =
        match players.reverse.find? (fun p => decide (k ∈ playerVariants p)) with
        | some p => some p
        | none => dlookup m k := by
  induction players with
  | nil => intro m k; rfl
  | cons p ps ih =>
    intro m k
    simp only [List.foldl_cons, List.reverse_cons]
    rw [ih, List.find?_append]
    cases hf : ps.reverse.find? (fun p2 => decide (k ∈ playerVariants p2)) with
    | some q => simp [Option.or]
    | none =>
      simp only [Option.or]
      rw [dlookup_insertVariants]
      by_cases hk : k ∈ playerVariants p
      · rw [if_pos hk, List.find?_cons_of_pos _ (by simpa using hk)]
      · rw [if_neg hk, List.find?_cons_of_neg _ (by simpa using hk)]
        rfl

lemma dlookup_build_some {players : List Player} {k : List Char} {p : Player}
    (h : dlookup (build_player_map players) k = some p) :
    p ∈ players ∧ k ∈ playerVariants p := by
  unfold build_player_map at h
  rw [dlookup_build_general] at h
  cases hf : players.reverse.find? (fun p2 => decide (k ∈ playerVariants p2)) with
  | some q =>
    rw [hf] at h
    have hqp : q = p := by simpa using h
    subst hqp
    exact ⟨List.mem_reverse.mp (List.mem_of_find?_eq_some hf),
      by simpa using List.find?_some hf⟩
  | none =>
    rw [hf] at h
    exact absurd h (by simp [dlookup])

lemma dlookup_build_exists {players : List Player} {k : List Char}
    (h : ∃ p ∈ players, k ∈ playerVariants p) :
    ∃ p, dlookup (build_player_map players) k = some p ∧
      p ∈ players ∧ k ∈ playerVariants p := by
  have h2 : (players.reverse.find? (fun p2 => decide (k ∈ playerVariants p2))).isSome = true := by
    rw [List.find?_isSome]
    obtain ⟨p, hp, hk⟩ := h
    exact ⟨p, List.mem_reverse.mpr hp, by simpa using hk⟩
  cases hf : players.reverse.find? (fun p2 => decide (k ∈ playerVariants p2)) with
  | none => rw [hf] at h2; simp at h2
  | some q =>
    refine ⟨q, ?_, List.mem_reverse.mp (List.mem_of_find?_eq_some hf),
      by simpa using List.find?_some hf⟩
    unfold build_player_map
    rw [dlookup_build_general, hf]

lemma dlookup_isSome_iff (m : List (List Char × Player)) (k : List Char) :
    (dlookup m k).isSome = true ↔ k ∈ m.map (fun e => e.1) := by
  unfold dlookup
  cases hf : m.find? (fun e => decide (e.1 = k)) with
  | some e =>
    simp only [Option.isSome_some, true_iff]
    rw [List.mem_map]
    exact ⟨e, List.mem_of_find?_eq_some hf, by simpa using List.find?_some hf⟩
  | none =>
    constructor
    · intro h; simp at h
    · intro hk
      rw [List.mem_map] at hk
      obtain ⟨e, he, hek⟩ := hk
      rw [List.find?_eq_none] at hf
      exact absurd (by simpa using hek) (by simpa using hf e he)

lemma mem_keys_build {players : List Player} {k : List Char} :
    k ∈ (build_player_map players).map (fun e => e.1) ↔
      ∃ p ∈ players, k ∈ playerVariants p := by
  rw [← dlookup_isSome_iff]
  constructor
  · intro h
    cases hd : dlookup (build_player_map players) k with
    | none => rw [hd] at h; simp at h
    | some p => exact ⟨p, (dlookup_build_some hd).1, (dlookup_build_some hd).2⟩
  · intro h
    obtain ⟨p, hp, _, _⟩ := dlookup_build_exists h
    simp [hp]

/-- Claim C1: exact variant lookup takes precedence (a normalized name
equal to some player's variant returns that player with no suggestion);
when no variant matches exactly and no variant reaches the 0.6 ratio
cutoff the result is no player and no suggestion; and the result never
carries both a player and a suggestion. -/
theorem C1_match_player (name : List Char) (players : List Player) :
    ((∃ p ∈ players, normalize name ∈ playerVariants p) →
      ∃ q ∈ players, normalize name ∈ playerVariants q ∧
        match_player name players = (some q, none)) ∧
    ((¬ ∃ p ∈ players, normalize name ∈ playerVariants p) →
      (∀ p ∈ players, ∀ v ∈ playerVariants p, cutoffOk v (normalize name) = false) →
      match_player name players = (none, none)) ∧
    ((match_player name players).1 = none ∨ (match_player name players).2 = none) := by
  refine ⟨?_, ?_, ?_⟩
  · intro h
    obtain ⟨q, hq, hmem, hvar⟩ := dlookup_build_exists h
    exact ⟨q, hmem, hvar, by simp [match_player, hq]⟩
  · intro hne hcut
    have hnone : dlookup (build_player_map players) (normalize name) = none := by
      cases hd : dlookup (build_player_map players) (normalize name) with
      | none => rfl
      | some p =>
        exact absurd ⟨p, (dlookup_build_some hd).1, (dlookup_build_some hd).2⟩ hne
    have hgcm : get_close_matches (normalize name)
        ((build_player_map players).map (fun e => e.1)) 1 = [] := by
      unfold get_close_matches
      have hfil : ((build_player_map players).map (fun e => e.1)).filter
          (fun x => cutoffOk x (normalize name)) = [] := by
        rw [List.filter_eq_nil_iff]
        intro x hx
        obtain ⟨p, hp, hvp⟩ := mem_keys_build.mp hx
        simp [hcut p hp x hvp]
      rw [hfil]
      simp [List.mergeSort_nil]
    simp [match_player, hnone, hgcm]
  · cases hd : dlookup (build_player_map players) (normalize name) with
    | some p =>
      have hmp : match_player name players = (some p, none) := by
        simp [match_player, hd]
      rw [hmp]
      exact Or.inr rfl
    | none =>
      cases hg : get_close_matches (normalize name)
          ((build_player_map players).map (fun e => e.1)) 1 with
      | nil =>
        have hmp : match_player name players = (none, none) := by
          simp [match_player, hd, hg]
        rw [hmp]
        exact Or.inl rfl
      | cons c cs =>
        have hmp : match_player name players = (none, some c) := by
          simp [match_player, hd, hg]
        rw [hmp]
        exact Or.inl rfl

/-- Witness for C1: a name far from the single player's variants gives no
player and no suggestion. -/
theorem C1_witness :
    match_player (("qqq").toList) [exPlayer] = (none, none) :=
  (C1_match_player (("qqq").toList) [exPlayer]).2.1 (by decide) (by decide)

end FPLApp
